import Mathlib

/-!
Verification of the position-simulation engine of the twitter_scraper
repository.

The definitions below are a shallow embedding of
`src/coingecko_api/position_simulator.py` (class `PositionSimulator`,
methods `simulate_position` and `simulate_all_positions`) and of
`calculate_liquidation_price` from `src/coincap_api/position_calculator.py`.
Python floats are modelled by `ℚ`; Python `None` by `Option.none`;
Python truthiness of a float (`if stop_loss:`, `if entry_price:`) by an
explicit `≠ 0` test on the carried value; the error-returning paths
(`return {"error": ...}`) by `Except.error`.  Timestamps only flow through
the simulation unchanged, so they are modelled as natural numbers.
-/

namespace TwitterSim

/-- The trading direction: the code's `sentiment` field restricted to the two
values `"long"` / `"short"` that pass the validity check at the top of
`simulate_position` (any other sentiment returns an error before the walk). -/
inductive Direction
  | long
  | short
deriving DecidableEq, Repr, Inhabited

/-- The `leverage` entry of the position dict: the string `"none"`, a value
that `float()` converts to a number, or a value on which `float()` raises
`ValueError`/`TypeError`. -/
inductive LeverageInput
  | noneStr
  | num (q : ℚ)
  | invalid
deriving DecidableEq, Repr, Inhabited

/-- Lines 257-261 of `position_simulator.py`:
`leverage_multiplier = float(leverage) if leverage != "none" else 1.0`
wrapped in `try/except (ValueError, TypeError): leverage_multiplier = 1.0`. -/
def leverageMultiplier : LeverageInput → ℚ
  | LeverageInput.noneStr => 1
  | LeverageInput.num q => q
  | LeverageInput.invalid => 1

/-- One `{"timestamp": ..., "price": ...}` entry of the price series. -/
structure PriceSample where
  time : ℕ
  price : ℚ
deriving DecidableEq, Repr, Inhabited

/-- The fields of the `position_data` dict that the simulation walk reads. -/
structure Signal where
  ticker : String
  direction : Direction
  leverage : LeverageInput
  entry_price : Option ℚ
  take_profits : List ℚ
  stop_loss : Option ℚ
deriving DecidableEq, Repr, Inhabited

/-- The `exit_reason` strings `"Stop Loss"`, `"All Take Profits Hit"` and
`"Position Still Open"`. -/
inductive ExitReason
  | stopLoss
  | allTakeProfitsHit
  | positionStillOpen
deriving DecidableEq, Repr, Inhabited

/-- One record appended to `exit_info["partial_exits"]` (lines 387-395). -/
structure PartialExit where
  tp_level : ℚ
  exit_price : ℚ
  exit_percentage : ℚ
  exit_size : ℚ
  pnl : ℚ
  time : ℕ
  market_price : ℚ
deriving DecidableEq, Repr, Inhabited

/-- The mutable locals of the walk in `simulate_position`:
`remaining_position_size`, `realized_pnl`, `unrealized_pnl`,
`take_profits_hit`, `exit_info` and the capital extrema. -/
structure SimState where
  remaining : ℚ
  realized : ℚ
  unrealized : ℚ
  hitTPs : List ℚ
  partialExits : List PartialExit
  fullyClosed : Bool
  exitPrice : Option ℚ
  exitReason : Option ExitReason
  exitTime : Option ℕ
  maxCapital : ℚ
  minCapital : ℚ
deriving DecidableEq, Repr, Inhabited

/-- Directional P&L: `(exit - entry) * size` for LONG and
`(entry - exit) * size` for SHORT, the convention used at every exit and
unrealized-P&L computation in `simulate_position`. -/
def directionalPnl (dir : Direction) (entry exitP size : ℚ) : ℚ :=
  match dir with
  | Direction.long => (exitP - entry) * size
  | Direction.short => (entry - exitP) * size

/-- The direction-dependent stop-loss comparison (lines 313 and 333):
LONG triggers when `current_price <= stop_loss`, SHORT when
`current_price >= stop_loss`. -/
def stopHit (dir : Direction) (sl price : ℚ) : Bool :=
  match dir with
  | Direction.long => decide (price ≤ sl)
  | Direction.short => decide (sl ≤ price)

/-- The direction-dependent take-profit comparison (lines 362-365):
LONG triggers when `current_price >= tp`, SHORT when `current_price <= tp`. -/
def tpHit (dir : Direction) (tp price : ℚ) : Bool :=
  match dir with
  | Direction.long => decide (tp ≤ price)
  | Direction.short => decide (price ≤ tp)

/-- The whole stop-loss guard at the top of the loop body (line 312 with the
direction branch): Python's `if stop_loss and remaining_position_size > 0:`
is truthiness on the float, hence the `sl ≠ 0` conjunct. -/
def stopTriggered (dir : Direction) (slOpt : Option ℚ) (remaining price : ℚ) : Bool :=
  match slOpt with
  | none => false
  | some sl => decide (sl ≠ 0) && decide (0 < remaining) && stopHit dir sl price

/-- The stop-loss closure (lines 314-332 / 334-352): realize the P&L of the
whole remaining size at the stop-loss price, zero the position and mark the
exit info. -/
def fireStop (dir : Direction) (entry sl : ℚ) (time : ℕ) (st : SimState) : SimState :=
  let finalPnl := directionalPnl dir entry sl st.remaining
  { st with
    realized := st.realized + finalPnl
    remaining := 0
    fullyClosed := true
    exitPrice := some sl
    exitReason := some ExitReason.stopLoss
    exitTime := some time }

/-- One triggered take-profit (lines 367-412): exit
`min(position_size * exit_percentage, remaining)`, realize its P&L, record
the partial exit, and fully close when the remainder drops to the `0.001`
tolerance. -/
def applyTP (dir : Direction) (entry size : ℚ) (time : ℕ) (price tp pct : ℚ)
    (st : SimState) : SimState :=
  let exitSize := min (size * pct) st.remaining
  let partialPnl := directionalPnl dir entry tp exitSize
  let st' := { st with
    realized := st.realized + partialPnl
    remaining := st.remaining - exitSize
    hitTPs := st.hitTPs ++ [tp]
    partialExits := st.partialExits ++
      [{ tp_level := tp, exit_price := tp, exit_percentage := pct,
         exit_size := exitSize, pnl := partialPnl, time := time,
         market_price := price }] }
  if st'.remaining ≤ 1/1000 then
    { st' with
      remaining := 0
      fullyClosed := true
      exitReason := some ExitReason.allTakeProfitsHit
      exitTime := some time }
  else st'

/-- The take-profit loop of one price step (lines 355-412): each pair is a
take-profit level with its percentage `tp_percentages[i]`; a level already in
`take_profits_hit` is skipped; the inner `break` after a full closure stops
the scan. -/
def runTPs (dir : Direction) (entry size : ℚ) (time : ℕ) (price : ℚ) :
    List (ℚ × ℚ) → SimState → SimState
  | [], st => st
  | (tp, pct) :: rest, st =>
    if tp ∈ st.hitTPs then runTPs dir entry size time price rest st
    else if tpHit dir tp price then
      let st' := applyTP dir entry size time price tp pct st
      if st'.fullyClosed then st' else runTPs dir entry size time price rest st'
    else runTPs dir entry size time price rest st

/-- Lines 415-423: while the position is open, recompute the unrealized P&L
at the current price and update the capital extrema. -/
def refreshUnrealized (dir : Direction) (entry initCap price : ℚ) (st : SimState) : SimState :=
  if 0 < st.remaining then
    let u := directionalPnl dir entry price st.remaining
    let total := initCap + st.realized + u
    { st with
      unrealized := u
      maxCapital := max st.maxCapital total
      minCapital := min st.minCapital total }
  else st

/-- The walk over the price series (`for price_point in price_data`, lines
307-431): stop-loss check first, whose trigger breaks the loop; then the
take-profit scan, guarded by `if take_profits and remaining > 0`; then the
unrealized-P&L refresh; then `if exit_info["fully_closed"]: break`. -/
def walk (dir : Direction) (slOpt : Option ℚ) (pairs : List (ℚ × ℚ))
    (entry size initCap : ℚ) : List PriceSample → SimState → SimState
  | [], st => st
  | s :: rest, st =>
    if stopTriggered dir slOpt st.remaining s.price then
      fireStop dir entry (slOpt.getD 0) s.time st
    else
      let st1 := if pairs ≠ [] ∧ 0 < st.remaining then
        runTPs dir entry size s.time s.price pairs st else st
      let st2 := refreshUnrealized dir entry initCap s.price st1
      if st2.fullyClosed then st2 else walk dir slOpt pairs entry size initCap rest st2

/-- The initial walk state (lines 268-289): full position, no realized or
unrealized P&L, no hits, position open, capital extrema at the initial
capital. -/
def initialState (size initCap : ℚ) : SimState :=
  { remaining := size
    realized := 0
    unrealized := 0
    hitTPs := []
    partialExits := []
    fullyClosed := false
    exitPrice := none
    exitReason := none
    exitTime := none
    maxCapital := initCap
    minCapital := initCap }

/-- Lines 252-255: `effective_entry_price = entry_price` when the field is
truthy, else the first price of the series. -/
def effectiveEntry (sig : Signal) (firstPrice : ℚ) : ℚ :=
  match sig.entry_price with
  | some e => if e = 0 then firstPrice else e
  | none => firstPrice

/-- Line 265: `position_size = (initial_capital * leverage_multiplier) /
effective_entry_price`, with the hardcoded `initial_capital = 100.0`. -/
def positionSize (sig : Signal) (firstPrice : ℚ) : ℚ :=
  100 * leverageMultiplier sig.leverage / effectiveEntry sig firstPrice

/-- Lines 279-281: each take-profit level gets the equal percentage
`1.0 / num_tps`; the walk reads the pair `(take_profits[i],
tp_percentages[i])`. -/
def tpPairs (tps : List ℚ) : List (ℚ × ℚ) :=
  tps.zip (List.replicate tps.length (1 / (tps.length : ℚ)))

/-- The state after the walk over the whole price series. -/
def walkState (sig : Signal) (first : PriceSample) (rest : List PriceSample) : SimState :=
  walk sig.direction sig.stop_loss (tpPairs sig.take_profits)
    (effectiveEntry sig first.price) (positionSize sig first.price) 100
    (first :: rest) (initialState (positionSize sig first.price) 100)

/-- Lines 434-447: if the walk ended with the position still open, recompute
the unrealized P&L at the last price and mark the exit info as
`"Position Still Open"` at the last sample. -/
def finalizeState (dir : Direction) (entry : ℚ) (lastS : PriceSample)
    (st : SimState) : SimState :=
  if st.fullyClosed then st
  else
    let st' := if 0 < st.remaining then
      { st with unrealized := directionalPnl dir entry lastS.price st.remaining }
      else st
    { st' with
      exitPrice := some lastS.price
      exitReason := some ExitReason.positionStillOpen
      exitTime := some lastS.time }

/-- The `position_status` sub-dict of the returned result (lines 476-481). -/
structure PositionStatus where
  fully_closed : Bool
  remaining_position_size : ℚ
  position_closed_percent : ℚ
  partial_exits : List PartialExit
deriving DecidableEq, Repr, Inhabited

/-- The result dict returned by `simulate_position` (lines 457-482). -/
structure Outcome where
  ticker : String
  direction : Direction
  leverage : ℚ
  entry_price : ℚ
  exit_price : Option ℚ
  exit_reason : Option ExitReason
  exit_time : Option ℕ
  initial_capital : ℚ
  final_capital : ℚ
  realized_pnl : ℚ
  unrealized_pnl : ℚ
  total_pnl : ℚ
  roi_percent : ℚ
  max_capital : ℚ
  min_capital : ℚ
  max_drawdown_percent : ℚ
  price_points : ℕ
  position_status : PositionStatus
deriving DecidableEq, Repr, Inhabited

/-- The final computations and the result record (lines 449-482). -/
def buildOutcome (sig : Signal) (first : PriceSample) (rest : List PriceSample) : Outcome :=
  let entry := effectiveEntry sig first.price
  let size := positionSize sig first.price
  let lastS := List.getLastD rest first
  let st := finalizeState sig.direction entry lastS (walkState sig first rest)
  let totalPnl := st.realized + st.unrealized
  let roi := totalPnl / 100 * 100
  let drawdown := if 0 < st.maxCapital then
    (st.maxCapital - st.minCapital) / st.maxCapital * 100 else 0
  { ticker := sig.ticker
    direction := sig.direction
    leverage := leverageMultiplier sig.leverage
    entry_price := entry
    exit_price := st.exitPrice
    exit_reason := st.exitReason
    exit_time := st.exitTime
    initial_capital := 100
    final_capital := 100 + totalPnl
    realized_pnl := st.realized
    unrealized_pnl := st.unrealized
    total_pnl := totalPnl
    roi_percent := roi
    max_capital := st.maxCapital
    min_capital := st.minCapital
    max_drawdown_percent := drawdown
    price_points := (first :: rest).length
    position_status := {
      fully_closed := st.fullyClosed
      remaining_position_size := st.remaining
      position_closed_percent := (size - st.remaining) / size * 100
      partial_exits := st.partialExits } }

/-- The simulation of one position over an already-fetched price series
(`simulate_position`, lines 195-482, after the ticker lookup and price fetch
that the spec treats as external): an empty series returns the
`"Données de prix non disponibles"` error dict. -/
def simulate_position (sig : Signal) (priceData : List PriceSample) : Except String Outcome :=
  match priceData with
  | [] => Except.error "Données de prix non disponibles"
  | first :: rest => Except.ok (buildOutcome sig first rest)

/-- Total function extracting the outcome of a successful simulation (used to
state closed concrete-run facts). -/
def getOut (r : Except String Outcome) : Outcome :=
  match r with
  | Except.ok o => o
  | Except.error _ => default

/-- Line 569: `best_trade = max(simulation_results, key=lambda x:
x["roi_percent"])`.  Python's `max` keeps the first of several maximal
elements: the accumulator is replaced only on a strictly greater key. -/
def bestTrade : List Outcome → Option Outcome
  | [] => none
  | x :: xs => some (xs.foldl (fun b y => if b.roi_percent < y.roi_percent then y else b) x)

/-- Line 570: `worst_trade = min(simulation_results, key=...)`; Python's
`min` keeps the first of several minimal elements. -/
def worstTrade : List Outcome → Option Outcome
  | [] => none
  | x :: xs => some (xs.foldl (fun b y => if y.roi_percent < b.roi_percent then y else b) x)

/-- The summary dict built by `simulate_all_positions` (lines 576-590). -/
structure Summary where
  total_positions : ℕ
  total_capital : ℚ
  total_pnl : ℚ
  roi_percent : ℚ
  profitable_positions : ℕ
  losing_positions : ℕ
  win_rate : ℚ
  average_roi : ℚ
  average_drawdown : ℚ
  best_trade : Option Outcome
  worst_trade : Option Outcome
  positions : List Outcome
deriving DecidableEq, Repr, Inhabited

/-- The aggregation step of `simulate_all_positions` (lines 556-590), over
the list of successful per-position results: an empty list returns the
`"Aucune position simulée avec succès"` error dict; otherwise the counts,
rates, averages and the best/worst trades are computed. -/
def aggregateResults (rs : List Outcome) : Except String Summary :=
  if rs = [] then Except.error "Aucune position simulée avec succès"
  else
    let n := rs.length
    let totalCap := (rs.map (fun r => r.initial_capital)).sum
    let totalPnl := (rs.map (fun r => r.total_pnl)).sum
    let profitable := (rs.filter (fun r => decide (0 < r.total_pnl))).length
    let losing := (rs.filter (fun r => decide (r.total_pnl < 0))).length
    Except.ok {
      total_positions := n
      total_capital := totalCap
      total_pnl := totalPnl
      roi_percent := if 0 < totalCap then totalPnl / totalCap * 100 else 0
      profitable_positions := profitable
      losing_positions := losing
      win_rate := if 0 < n then (profitable : ℚ) / (n : ℚ) * 100 else 0
      average_roi := if rs ≠ [] then (rs.map (fun r => r.roi_percent)).sum / (n : ℚ) else 0
      average_drawdown := if rs ≠ [] then
        (rs.map (fun r => r.max_drawdown_percent)).sum / (n : ℚ) else 0
      best_trade := bestTrade rs
      worst_trade := worstTrade rs
      positions := rs }

/-- The batch driver `simulate_all_positions` (lines 485-595): an empty
analysis list returns the `"Aucune analyse de tweets trouvée pour la
simulation"` error dict; otherwise each position is simulated, the error
results are dropped, and the successes are aggregated. -/
def simulate_all_positions (inputs : List (Signal × List PriceSample)) : Except String Summary :=
  if inputs = [] then Except.error "Aucune analyse de tweets trouvée pour la simulation"
  else aggregateResults (inputs.filterMap (fun p => (simulate_position p.1 p.2).toOption))

/-- The liquidation-price helper of
`src/coincap_api/position_calculator.py` (lines 140-160): the
`0.9 / leverage` threshold subtracted for `"LONG"` and added otherwise. -/
def calculate_liquidation_price (entry_price : ℚ) (position_type : String)
    (leverage : ℚ) : ℚ :=
  let liquidation_threshold := 9/10 / leverage
  if position_type = "LONG" then entry_price * (1 - liquidation_threshold)
  else entry_price * (1 + liquidation_threshold)

end TwitterSim

namespace TwitterSim

/-- The walk invariant tying `take_profits_hit`, the recorded partial exits,
the remaining size and the exit info together: hit levels are exactly the
recorded exits' levels, each level is recorded at most once and comes from
`take_profits`, every recorded exit carries the equal percentage `1/k` and
the size `position_size/k`, and the remaining size decreases by exactly one
such slice per exit until the `0.001` closing tolerance is reached. -/
structure ExitsWF (tps : List ℚ) (size : ℚ) (st : SimState) : Prop where
  hit_eq : st.hitTPs = st.partialExits.map (fun e => e.tp_level)
  hit_nodup : st.hitTPs.Nodup
  hit_mem : ∀ tp ∈ st.hitTPs, tp ∈ tps
  exit_fields : ∀ e ∈ st.partialExits,
    e.exit_percentage = 1 / (tps.length : ℚ)
      ∧ e.exit_size = size / (tps.length : ℚ) ∧ e.exit_price = e.tp_level
  open_reason : st.fullyClosed = false → st.exitReason = none
  open_rem : st.fullyClosed = false →
    st.remaining = size - (st.partialExits.length : ℚ) * (size / (tps.length : ℚ))
  open_tol : st.fullyClosed = false → st.partialExits = [] ∨ 1/1000 < st.remaining
  closed_rem : st.fullyClosed = true → st.remaining = 0
  closed_reason : st.fullyClosed = true →
    st.exitReason = some ExitReason.stopLoss ∨ st.exitReason = some ExitReason.allTakeProfitsHit
  alltp_tol : st.exitReason = some ExitReason.allTakeProfitsHit →
    size - (st.partialExits.length : ℚ) * (size / (tps.length : ℚ)) ≤ 1/1000
  stop_exits : st.exitReason = some ExitReason.stopLoss →
    st.partialExits.length < tps.length ∨ tps = []

/-- Each pair the walk scans is a level of `take_profits` together with the
equal percentage `1/k`. -/
theorem tpPairs_mem {tps : List ℚ} {p : ℚ × ℚ} (hp : p ∈ tpPairs tps) :
    p.1 ∈ tps ∧ p.2 = 1 / (tps.length : ℚ) := by
  unfold tpPairs at hp
  have h1 := List.of_mem_zip hp
  exact ⟨h1.1, List.eq_of_mem_replicate h1.2⟩

/-- A triggered stop-loss guard implies a positive remaining size. -/
theorem stopTriggered_rem {dir : Direction} {slOpt : Option ℚ} {remaining price : ℚ}
    (h : stopTriggered dir slOpt remaining price = true) : 0 < remaining := by
  unfold stopTriggered at h
  cases slOpt with
  | none => simp at h
  | some sl =>
    simp only [Bool.and_eq_true, decide_eq_true_eq] at h
    exact h.1.2

/-- An open position with positive remaining size has strictly fewer recorded
exits than take-profit levels (or no levels at all). -/
theorem exits_lt_of_open {tps : List ℚ} {size : ℚ} {st : SimState}
    (h : ExitsWF tps size st) (hsize : 0 < size)
    (hopen : st.fullyClosed = false) (hrem : 0 < st.remaining) :
    st.partialExits.length < tps.length ∨ tps = [] := by
  rcases eq_or_ne tps [] with h0 | h0
  · exact Or.inr h0
  · left
    have hk : 0 < (tps.length : ℚ) := by
      have hpos : 0 < tps.length := List.length_pos.mpr h0
      exact_mod_cast hpos
    have hrem_eq := h.open_rem hopen
    by_contra hle
    push_neg at hle
    have hcast : (tps.length : ℚ) ≤ (st.partialExits.length : ℚ) := by exact_mod_cast hle
    have hq : 0 < size / (tps.length : ℚ) := div_pos hsize hk
    have hks : (tps.length : ℚ) * (size / (tps.length : ℚ)) = size := by
      field_simp
    have hmul : (tps.length : ℚ) * (size / (tps.length : ℚ))
        ≤ (st.partialExits.length : ℚ) * (size / (tps.length : ℚ)) :=
      mul_le_mul_of_nonneg_right hcast (le_of_lt hq)
    rw [hks] at hmul
    rw [hrem_eq] at hrem
    linarith

/-- The invariant only reads the exit bookkeeping fields, so it transfers
between states agreeing on them. -/
theorem ExitsWF.transfer {tps : List ℚ} {size : ℚ} {st st' : SimState}
    (h : ExitsWF tps size st)
    (h1 : st'.remaining = st.remaining) (h2 : st'.hitTPs = st.hitTPs)
    (h3 : st'.partialExits = st.partialExits) (h4 : st'.fullyClosed = st.fullyClosed)
    (h5 : st'.exitReason = st.exitReason) : ExitsWF tps size st' := by
  cases h
  constructor <;> simp_all

/-- The initial walk state satisfies the invariant. -/
theorem initialState_wf (tps : List ℚ) (size initCap : ℚ) :
    ExitsWF tps size (initialState size initCap) := by
  constructor <;> simp [initialState]

end TwitterSim

namespace TwitterSim

/-- A triggered take-profit preserves the walk invariant: the exit slice is
exactly `size/k`, the hit level is recorded once, and the state either stays
open above the tolerance or closes as `All Take Profits Hit`. -/
theorem applyTP_wf (dir : Direction) (entry size : ℚ) (time : ℕ) (price tp pct : ℚ)
    (tps : List ℚ) (st : SimState) (hsize : 0 < size)
    (htp : tp ∈ tps) (hpct : pct = 1 / (tps.length : ℚ))
    (hnotin : tp ∉ st.hitTPs)
    (hwf : ExitsWF tps size st) (hopen : st.fullyClosed = false) :
    ExitsWF tps size (applyTP dir entry size time price tp pct st) := by
  have hne : tps ≠ [] := fun h => by simp [h] at htp
  have hkpos : 0 < tps.length := List.length_pos.mpr hne
  have hk : 0 < (tps.length : ℚ) := by exact_mod_cast hkpos
  have hq : 0 < size / (tps.length : ℚ) := div_pos hsize hk
  have hrem_eq := hwf.open_rem hopen
  have hreason := hwf.open_reason hopen
  have hrpos : 0 < st.remaining := by
    rcases hwf.open_tol hopen with h | h
    · rw [hrem_eq, h]
      simpa using hsize
    · linarith
  have hmk : st.partialExits.length < tps.length := by
    rcases exits_lt_of_open hwf hsize hopen hrpos with h | h
    · exact h
    · exact absurd h hne
  have hm1 : (st.partialExits.length : ℚ) + 1 ≤ (tps.length : ℚ) := by
    have h2 : st.partialExits.length + 1 ≤ tps.length := hmk
    exact_mod_cast h2
  have hks : (tps.length : ℚ) * (size / (tps.length : ℚ)) = size := by field_simp
  have hmin : min (size * pct) st.remaining = size / (tps.length : ℚ) := by
    rw [hpct, mul_one_div]
    refine min_eq_left ?_
    rw [hrem_eq]
    have hmul : ((st.partialExits.length : ℚ) + 1) * (size / (tps.length : ℚ))
        ≤ (tps.length : ℚ) * (size / (tps.length : ℚ)) :=
      mul_le_mul_of_nonneg_right hm1 hq.le
    rw [hks] at hmul
    linarith [hmul]
  have hnew : st.remaining - min (size * pct) st.remaining
      = size - ((st.partialExits.length : ℚ) + 1) * (size / (tps.length : ℚ)) := by
    rw [hmin, hrem_eq]
    ring
  simp only [applyTP]
  split_ifs with hcond
  · refine ⟨?_, ?_, ?_, ?_, ?_, ?_, ?_, ?_, ?_, ?_, ?_⟩
    · simp [hwf.hit_eq]
    · simp only [SimState.hitTPs]
      rw [List.nodup_append]
      exact ⟨hwf.hit_nodup, List.nodup_singleton tp, by simpa using hnotin⟩
    · intro tp' h
      rcases List.mem_append.1 h with h | h
      · exact hwf.hit_mem tp' h
      · simp at h
        exact h ▸ htp
    · intro e he
      rcases List.mem_append.1 he with h | h
      · exact hwf.exit_fields e h
      · simp at h
        subst h
        exact ⟨hpct, hmin, rfl⟩
    · intro h
      simp at h
    · intro h
      simp at h
    · intro h
      simp at h
    · intro _
      rfl
    · intro _
      exact Or.inr rfl
    · intro _
      simp only [List.length_append, List.length_singleton]
      push_cast
      rw [← hnew]
      exact hcond
    · intro h
      simp at h
  · refine ⟨?_, ?_, ?_, ?_, ?_, ?_, ?_, ?_, ?_, ?_, ?_⟩
    · simp [hwf.hit_eq]
    · simp only [SimState.hitTPs]
      rw [List.nodup_append]
      exact ⟨hwf.hit_nodup, List.nodup_singleton tp, by simpa using hnotin⟩
    · intro tp' h
      rcases List.mem_append.1 h with h | h
      · exact hwf.hit_mem tp' h
      · simp at h
        exact h ▸ htp
    · intro e he
      rcases List.mem_append.1 he with h | h
      · exact hwf.exit_fields e h
      · simp at h
        subst h
        exact ⟨hpct, hmin, rfl⟩
    · intro _
      exact hreason
    · intro _
      simp only [List.length_append, List.length_singleton]
      push_cast
      rw [← hnew]
    · intro _
      right
      push_neg at hcond
      exact hcond
    · intro h
      rw [hopen] at h
      cases h
    · intro h
      rw [hopen] at h
      cases h
    · intro h
      rw [hreason] at h
      cases h
    · intro h
      rw [hreason] at h
      cases h

end TwitterSim

namespace TwitterSim

/-- The take-profit scan of one step preserves the walk invariant when every
scanned pair is a level of `take_profits` with the equal percentage. -/
theorem runTPs_wf (dir : Direction) (entry size : ℚ) (time : ℕ) (price : ℚ)
    (tps : List ℚ) (hsize : 0 < size) (pairs : List (ℚ × ℚ)) :
    ∀ st : SimState, (∀ p ∈ pairs, p.1 ∈ tps ∧ p.2 = 1 / (tps.length : ℚ)) →
      ExitsWF tps size st → st.fullyClosed = false →
      ExitsWF tps size (runTPs dir entry size time price pairs st) := by
  induction pairs with
  | nil =>
    intro st _ hwf _
    simpa [runTPs] using hwf
  | cons p rest ih =>
    intro st hp hwf hopen
    obtain ⟨tp, pct⟩ := p
    have hhead := hp (tp, pct) (List.mem_cons_self _ _)
    have htail : ∀ q ∈ rest, q.1 ∈ tps ∧ q.2 = 1 / (tps.length : ℚ) :=
      fun q hq => hp q (List.mem_cons_of_mem _ hq)
    rw [runTPs]
    by_cases hmem : tp ∈ st.hitTPs
    · rw [if_pos hmem]
      exact ih st htail hwf hopen
    · rw [if_neg hmem]
      by_cases hhit : tpHit dir tp price = true
      · rw [if_pos hhit]
        have hwf' := applyTP_wf dir entry size time price tp pct tps st hsize
          hhead.1 hhead.2 hmem hwf hopen
        by_cases hc : (applyTP dir entry size time price tp pct st).fullyClosed = true
        · rw [if_pos hc]
          exact hwf'
        · rw [if_neg hc]
          exact ih _ htail hwf' (by simpa using hc)
      · rw [if_neg hhit]
        exact ih st htail hwf hopen

/-- A fired stop-loss preserves the walk invariant: the exit bookkeeping is
unchanged, the position is zeroed and the exit reason becomes `Stop Loss`. -/
theorem fireStop_wf {tps : List ℚ} {size : ℚ} (dir : Direction) (entry sl : ℚ) (time : ℕ)
    {st : SimState} (hsize : 0 < size) (hwf : ExitsWF tps size st)
    (hopen : st.fullyClosed = false) (hrem : 0 < st.remaining) :
    ExitsWF tps size (fireStop dir entry sl time st) := by
  have hlt := exits_lt_of_open hwf hsize hopen hrem
  refine ⟨?_, ?_, ?_, ?_, ?_, ?_, ?_, ?_, ?_, ?_, ?_⟩
  · exact hwf.hit_eq
  · exact hwf.hit_nodup
  · exact hwf.hit_mem
  · exact hwf.exit_fields
  · intro h
    simp [fireStop] at h
  · intro h
    simp [fireStop] at h
  · intro h
    simp [fireStop] at h
  · intro _
    rfl
  · intro _
    exact Or.inl rfl
  · intro h
    simp [fireStop] at h
  · intro _
    exact hlt

/-- The unrealized-P&L refresh does not touch the exit bookkeeping. -/
theorem refreshUnrealized_wf {tps : List ℚ} {size : ℚ} (dir : Direction)
    (entry initCap price : ℚ) {st : SimState} (h : ExitsWF tps size st) :
    ExitsWF tps size (refreshUnrealized dir entry initCap price st) := by
  refine h.transfer ?_ ?_ ?_ ?_ ?_ <;>
    (unfold refreshUnrealized; split_ifs <;> simp)

/-- The whole walk preserves the invariant from any open state. -/
theorem walk_wf (dir : Direction) (slOpt : Option ℚ) (tps : List ℚ)
    (entry size initCap : ℚ) (hsize : 0 < size) (samples : List PriceSample) :
    ∀ st : SimState, ExitsWF tps size st → st.fullyClosed = false →
      ExitsWF tps size (walk dir slOpt (tpPairs tps) entry size initCap samples st) := by
  induction samples with
  | nil =>
    intro st hwf _
    simpa [walk] using hwf
  | cons s rest ih =>
    intro st hwf hopen
    rw [walk]
    by_cases hstop : stopTriggered dir slOpt st.remaining s.price = true
    · rw [if_pos hstop]
      exact fireStop_wf dir entry (slOpt.getD 0) s.time hsize hwf hopen
        (stopTriggered_rem hstop)
    · rw [if_neg hstop]
      have hwf1 : ExitsWF tps size
          (if tpPairs tps ≠ [] ∧ 0 < st.remaining then
            runTPs dir entry size s.time s.price (tpPairs tps) st else st) := by
        split_ifs with hg
        · exact runTPs_wf dir entry size s.time s.price tps hsize (tpPairs tps) st
            (fun p hp => tpPairs_mem hp) hwf hopen
        · exact hwf
      have hwf2 := refreshUnrealized_wf dir entry initCap s.price hwf1
      by_cases hcl : (refreshUnrealized dir entry initCap s.price
          (if tpPairs tps ≠ [] ∧ 0 < st.remaining then
            runTPs dir entry size s.time s.price (tpPairs tps) st else st)).fullyClosed = true
      · rw [if_pos hcl]
        exact hwf2
      · rw [if_neg hcl]
        exact ih _ hwf2 (by simpa using hcl)

/-- The state after the walk of `simulate_position` satisfies the invariant,
for a positive position size. -/
theorem walkState_wf (sig : Signal) (first : PriceSample) (rest : List PriceSample)
    (hsize : 0 < positionSize sig first.price) :
    ExitsWF sig.take_profits (positionSize sig first.price) (walkState sig first rest) := by
  unfold walkState
  exact walk_wf sig.direction sig.stop_loss sig.take_profits
    (effectiveEntry sig first.price) (positionSize sig first.price) 100 hsize
    (first :: rest) (initialState (positionSize sig first.price) 100)
    (initialState_wf sig.take_profits (positionSize sig first.price) 100) rfl

/-- Finalization keeps the exit bookkeeping of the walk and only stamps the
`Position Still Open` reason on a position the walk left open. -/
theorem finalizeState_fields (dir : Direction) (entry : ℚ) (lastS : PriceSample)
    (st : SimState) :
    (finalizeState dir entry lastS st).remaining = st.remaining
    ∧ (finalizeState dir entry lastS st).hitTPs = st.hitTPs
    ∧ (finalizeState dir entry lastS st).partialExits = st.partialExits
    ∧ (finalizeState dir entry lastS st).fullyClosed = st.fullyClosed
    ∧ (st.fullyClosed = true → (finalizeState dir entry lastS st).exitReason = st.exitReason)
    ∧ (st.fullyClosed = false →
        (finalizeState dir entry lastS st).exitReason = some ExitReason.positionStillOpen) := by
  unfold finalizeState
  split_ifs with h1 h2 <;> simp_all

end TwitterSim

namespace TwitterSim

/-- Bridge from the walk invariant to the returned outcome of
`simulate_position`: the recorded exits' levels are distinct levels of
`take_profits`, each exit carries the equal percentage and the
original-size slice, the remaining size obeys the slice accounting, a fully
closed position has remaining size `0` and one of the two closing reasons,
the `All Take Profits Hit` reason occurs exactly within the absolute `0.001`
tolerance, a stop-loss exit leaves at least one level untriggered (unless
there are none), and the reported total P&L is the sum of the realized and
the retained unrealized P&L. -/
theorem simulate_position_wf (sig : Signal) (first : PriceSample) (rest : List PriceSample)
    (out : Outcome) (hout : simulate_position sig (first :: rest) = Except.ok out)
    (hsize : 0 < positionSize sig first.price) :
    (out.position_status.partial_exits.map (fun e => e.tp_level)).Nodup
    ∧ (∀ e ∈ out.position_status.partial_exits,
        e.tp_level ∈ sig.take_profits
        ∧ e.exit_percentage = 1 / (sig.take_profits.length : ℚ)
        ∧ e.exit_size = positionSize sig first.price / (sig.take_profits.length : ℚ))
    ∧ (out.position_status.fully_closed = true →
        out.position_status.remaining_position_size = 0
        ∧ (out.exit_reason = some ExitReason.stopLoss
            ∨ out.exit_reason = some ExitReason.allTakeProfitsHit))
    ∧ (out.position_status.fully_closed = false →
        out.position_status.remaining_position_size
          = positionSize sig first.price
            - (out.position_status.partial_exits.length : ℚ)
              * (positionSize sig first.price / (sig.take_profits.length : ℚ))
        ∧ (out.position_status.partial_exits = []
            ∨ 1/1000 < out.position_status.remaining_position_size))
    ∧ (out.exit_reason = some ExitReason.allTakeProfitsHit →
        out.position_status.fully_closed = true
        ∧ positionSize sig first.price
            - (out.position_status.partial_exits.length : ℚ)
              * (positionSize sig first.price / (sig.take_profits.length : ℚ)) ≤ 1/1000)
    ∧ (out.exit_reason = some ExitReason.stopLoss →
        out.position_status.partial_exits.length < sig.take_profits.length
        ∨ sig.take_profits = [])
    ∧ out.total_pnl = out.realized_pnl + out.unrealized_pnl := by
  have hb : out = buildOutcome sig first rest := by
    have h := hout
    simp only [simulate_position, Except.ok.injEq] at h
    exact h.symm
  subst hb
  have hwf := walkState_wf sig first rest hsize
  obtain ⟨f1, f2, f3, f4, f5, f6⟩ := finalizeState_fields sig.direction
    (effectiveEntry sig first.price) (List.getLastD rest first) (walkState sig first rest)
  have hpe : (buildOutcome sig first rest).position_status.partial_exits
      = (walkState sig first rest).partialExits := by
    simp only [buildOutcome]
    exact f3
  have hrm : (buildOutcome sig first rest).position_status.remaining_position_size
      = (walkState sig first rest).remaining := by
    simp only [buildOutcome]
    exact f1
  have hfc : (buildOutcome sig first rest).position_status.fully_closed
      = (walkState sig first rest).fullyClosed := by
    simp only [buildOutcome]
    exact f4
  have hre : (buildOutcome sig first rest).exit_reason
      = (finalizeState sig.direction (effectiveEntry sig first.price)
          (List.getLastD rest first) (walkState sig first rest)).exitReason := by
    simp only [buildOutcome]
  have htot : (buildOutcome sig first rest).total_pnl
      = (buildOutcome sig first rest).realized_pnl
        + (buildOutcome sig first rest).unrealized_pnl := by
    simp only [buildOutcome]
  refine ⟨?_, ?_, ?_, ?_, ?_, ?_, htot⟩
  · rw [hpe, ← hwf.hit_eq]
    exact hwf.hit_nodup
  · intro e he
    rw [hpe] at he
    have hmem : e.tp_level ∈ sig.take_profits := by
      refine hwf.hit_mem e.tp_level ?_
      rw [hwf.hit_eq]
      exact List.mem_map_of_mem _ he
    have hfields := hwf.exit_fields e he
    exact ⟨hmem, hfields.1, hfields.2.1⟩
  · intro h
    rw [hfc] at h
    refine ⟨by rw [hrm]; exact hwf.closed_rem h, ?_⟩
    rw [hre, f5 h]
    exact hwf.closed_reason h
  · intro h
    rw [hfc] at h
    refine ⟨by rw [hrm, hpe]; exact hwf.open_rem h, ?_⟩
    rcases hwf.open_tol h with h2 | h2
    · exact Or.inl (by rw [hpe]; exact h2)
    · exact Or.inr (by rw [hrm]; exact h2)
  · intro h
    rw [hre] at h
    by_cases hcl : (walkState sig first rest).fullyClosed = true
    · rw [f5 hcl] at h
      refine ⟨by rw [hfc]; exact hcl, ?_⟩
      rw [hpe]
      exact hwf.alltp_tol h
    · rw [f6 (by simpa using hcl)] at h
      cases h
  · intro h
    rw [hre] at h
    by_cases hcl : (walkState sig first rest).fullyClosed = true
    · rw [f5 hcl] at h
      rw [hpe]
      exact hwf.stop_exits h
    · rw [f6 (by simpa using hcl)] at h
      cases h

end TwitterSim

namespace TwitterSim

set_option maxRecDepth 8000

def sigC1 : Signal :=
  { ticker := "BTC", direction := Direction.long, leverage := LeverageInput.noneStr,
    entry_price := some 100, take_profits := [], stop_loss := some 90 }

def pricesC1 : List PriceSample := [⟨0, 110⟩, ⟨1, 80⟩]

def outC1 : Outcome := getOut (simulate_position sigC1 pricesC1)

/-- C1: refuted as stated.  A LONG position entered at 100 with stop-loss 90
walks prices [110, 80]: the first sample sets `unrealized_pnl = 10`, the
second fires the stop-loss with `realized_pnl = -10`, and the stale
unrealized P&L is never reset, so the fully closed run reports
`total_pnl = 0 ≠ realized_pnl = -10`. -/
theorem c1_counterexample :
    simulate_position sigC1 pricesC1 = Except.ok outC1
    ∧ outC1.position_status.fully_closed = true
    ∧ outC1.exit_reason = some ExitReason.stopLoss
    ∧ outC1.position_status.remaining_position_size = 0
    ∧ outC1.realized_pnl = -10
    ∧ outC1.unrealized_pnl = 10
    ∧ outC1.total_pnl = 0
    ∧ outC1.total_pnl ≠ outC1.realized_pnl := by
  refine ⟨rfl, ?_, ?_, ?_, ?_, ?_, ?_, ?_⟩ <;>
    norm_num [sigC1, pricesC1, outC1, simulate_position, getOut, buildOutcome, walkState,
      walk, runTPs, applyTP, initialState, effectiveEntry, positionSize, leverageMultiplier,
      tpPairs, stopTriggered, stopHit, tpHit, fireStop, refreshUnrealized, directionalPnl,
      finalizeState, List.cons_ne_nil]

def sigC2 : Signal :=
  { ticker := "ETH", direction := Direction.short, leverage := LeverageInput.noneStr,
    entry_price := some 100, take_profits := [90], stop_loss := some 0 }

def pricesC2 : List PriceSample := [⟨0, 90⟩]

def outC2 : Outcome := getOut (simulate_position sigC2 pricesC2)

/-- C2: refuted as stated.  For a SHORT position with `stop_loss = 0`, the
spec's stop-loss condition `current_price >= stop_loss` holds at price 90
and a take-profit condition holds at the same step, yet the code's
truthiness guard `if stop_loss:` skips the zero stop-loss, so the
take-profit fires and records a partial exit instead of the stop-loss. -/
theorem c2_counterexample :
    sigC2.stop_loss = some 0
    ∧ stopHit Direction.short 0 90 = true
    ∧ tpHit Direction.short 90 90 = true
    ∧ simulate_position sigC2 pricesC2 = Except.ok outC2
    ∧ outC2.exit_reason = some ExitReason.allTakeProfitsHit
    ∧ outC2.exit_reason ≠ some ExitReason.stopLoss
    ∧ outC2.position_status.partial_exits.length = 1 := by
  refine ⟨rfl, ?_, ?_, rfl, ?_, ?_, ?_⟩ <;>
    norm_num [sigC2, pricesC2, outC2, simulate_position, getOut, buildOutcome, walkState,
      walk, runTPs, applyTP, initialState, effectiveEntry, positionSize, leverageMultiplier,
      tpPairs, stopTriggered, stopHit, tpHit, fireStop, refreshUnrealized, directionalPnl,
      finalizeState, List.cons_ne_nil] <;> decide

def sigC4 : Signal :=
  { ticker := "BTC", direction := Direction.long, leverage := LeverageInput.noneStr,
    entry_price := some 200000, take_profits := [210000, 220000], stop_loss := none }

def pricesC4 : List PriceSample := [⟨0, 210000⟩]

def outC4 : Outcome := getOut (simulate_position sigC4 pricesC4)

/-- C4: refuted as stated.  With position size `1/2000` and two take-profit
levels, the first triggered level leaves `1/4000` of the position, which is
above the claimed relative epsilon `0.001 * original size = 1/2000000` but
below the code's absolute `0.001`, so the position is closed as
`All Take Profits Hit` after a single partial exit: the tolerance is
absolute, not a fraction of the original size. -/
theorem c4_counterexample :
    simulate_position sigC4 pricesC4 = Except.ok outC4
    ∧ positionSize sigC4 210000 = 1/2000
    ∧ outC4.position_status.fully_closed = true
    ∧ outC4.exit_reason = some ExitReason.allTakeProfitsHit
    ∧ outC4.position_status.partial_exits.map (fun e => e.exit_size) = [1/4000]
    ∧ positionSize sigC4 210000 - 1/4000 > (1/1000) * positionSize sigC4 210000 := by
  refine ⟨rfl, ?_, ?_, ?_, ?_, ?_⟩ <;>
    norm_num [sigC4, pricesC4, outC4, simulate_position, getOut, buildOutcome, walkState,
      walk, runTPs, applyTP, initialState, effectiveEntry, positionSize, leverageMultiplier,
      tpPairs, stopTriggered, stopHit, tpHit, fireStop, refreshUnrealized, directionalPnl,
      finalizeState, List.cons_ne_nil]

def sigC5 : Signal :=
  { ticker := "SOL", direction := Direction.long, leverage := LeverageInput.num (-2),
    entry_price := some 100, take_profits := [], stop_loss := none }

def pricesC5 : List PriceSample := [⟨0, 100⟩]

def outC5 : Outcome := getOut (simulate_position sigC5 pricesC5)

/-- C5: refuted as stated.  A numeric, non-positive leverage of -2 passes
`float()` unchanged, so the simulation proceeds with leverage -2, not the
claimed normalization to 1.0. -/
theorem c5_counterexample :
    leverageMultiplier (LeverageInput.num (-2)) = -2
    ∧ (-2:ℚ) ≤ 0
    ∧ simulate_position sigC5 pricesC5 = Except.ok outC5
    ∧ outC5.leverage = -2
    ∧ outC5.leverage ≠ 1 := by
  refine ⟨rfl, ?_, rfl, ?_, ?_⟩ <;>
    norm_num [sigC5, pricesC5, outC5, simulate_position, getOut, buildOutcome, walkState,
      walk, runTPs, applyTP, initialState, effectiveEntry, positionSize, leverageMultiplier,
      tpPairs, stopTriggered, stopHit, tpHit, fireStop, refreshUnrealized, directionalPnl,
      finalizeState, List.cons_ne_nil]

def sigC6 : Signal :=
  { ticker := "BTC", direction := Direction.long, leverage := LeverageInput.num 10,
    entry_price := some 63000, take_profits := [65000, 67000, 70000], stop_loss := some 60000 }

def pricesC6 : List PriceSample := [⟨0, 63000⟩, ⟨1, 59000⟩]

def outC6 : Outcome := getOut (simulate_position sigC6 pricesC6)

/-- C6: refuted as stated.  The scenario does yield a stop-loss exit at
60000 with no partial exits and
`total_pnl = (60000-63000)/63000 * 10 * 100 = -1000/21 ≈ -47.62`, but the
claim's numeric value -476.19 is off by a factor of ten: the run's total
P&L differs from it by more than 400. -/
theorem c6_counterexample :
    simulate_position sigC6 pricesC6 = Except.ok outC6
    ∧ outC6.exit_reason = some ExitReason.stopLoss
    ∧ outC6.exit_price = some 60000
    ∧ outC6.position_status.partial_exits = []
    ∧ outC6.total_pnl = (60000 - 63000) / 63000 * 10 * 100
    ∧ outC6.total_pnl - (-47619/100) > 400 := by
  refine ⟨rfl, ?_, ?_, ?_, ?_, ?_⟩ <;>
    norm_num [sigC6, pricesC6, outC6, simulate_position, getOut, buildOutcome, walkState,
      walk, runTPs, applyTP, initialState, effectiveEntry, positionSize, leverageMultiplier,
      tpPairs, stopTriggered, stopHit, tpHit, fireStop, refreshUnrealized, directionalPnl,
      finalizeState, List.cons_ne_nil]

def sigC10 : Signal :=
  { ticker := "BTC", direction := Direction.long, leverage := LeverageInput.noneStr,
    entry_price := some 50000, take_profits := [60000, 60000], stop_loss := none }

def pricesC10 : List PriceSample := [⟨0, 60000⟩]

def outC10 : Outcome := getOut (simulate_position sigC10 pricesC10)

/-- C10: refuted as stated.  With the duplicated level list [60000, 60000]
and position size `1/500`, the single partial exit of `1/1000` leaves
exactly `1/1000`, within the absolute closing tolerance, so the position IS
fully closed through take-profits alone, contradicting the claim's final
clause. -/
theorem c10_counterexample :
    ¬ sigC10.take_profits.Nodup
    ∧ simulate_position sigC10 pricesC10 = Except.ok outC10
    ∧ outC10.position_status.fully_closed = true
    ∧ outC10.exit_reason = some ExitReason.allTakeProfitsHit
    ∧ outC10.position_status.partial_exits.length = 1 := by
  refine ⟨?_, rfl, ?_, ?_, ?_⟩ <;>
    norm_num [sigC10, pricesC10, outC10, simulate_position, getOut, buildOutcome, walkState,
      walk, runTPs, applyTP, initialState, effectiveEntry, positionSize, leverageMultiplier,
      tpPairs, stopTriggered, stopHit, tpHit, fireStop, refreshUnrealized, directionalPnl,
      finalizeState, List.cons_ne_nil, List.nodup_cons]

end TwitterSim

namespace TwitterSim

/-- C1 (amended): for every run that ends fully closed (exit reason
`Stop Loss` or `All Take Profits Hit`), `remaining_size` is 0, but
`unrealized_pnl` is not recomputed after closure — it retains the value last
computed while the position was open — so the reported `total_pnl` is
`realized_pnl + unrealized_pnl`, which equals `realized_pnl` alone only when
the retained unrealized value is 0. -/
theorem c1_closed_run_pnl (sig : Signal) (first : PriceSample) (rest : List PriceSample)
    (out : Outcome) (hout : simulate_position sig (first :: rest) = Except.ok out)
    (hsize : 0 < positionSize sig first.price)
    (hclosed : out.position_status.fully_closed = true) :
    out.position_status.remaining_position_size = 0
    ∧ (out.exit_reason = some ExitReason.stopLoss
        ∨ out.exit_reason = some ExitReason.allTakeProfitsHit)
    ∧ out.total_pnl = out.realized_pnl + out.unrealized_pnl := by
  obtain ⟨-, -, h3, -, -, -, h7⟩ := simulate_position_wf sig first rest out hout hsize
  exact ⟨(h3 hclosed).1, (h3 hclosed).2, h7⟩

/-- C1 witness: the counterexample run of C1 is fully closed, and the
amended statement holds on it. -/
theorem c1_closed_run_pnl_witness :
    (simulate_position sigC1 (⟨0, 110⟩ :: [⟨1, 80⟩]) = Except.ok outC1
      ∧ 0 < positionSize sigC1 (PriceSample.mk 0 110).price
      ∧ outC1.position_status.fully_closed = true)
    ∧ (outC1.position_status.remaining_position_size = 0
      ∧ (outC1.exit_reason = some ExitReason.stopLoss
          ∨ outC1.exit_reason = some ExitReason.allTakeProfitsHit)
      ∧ outC1.total_pnl = outC1.realized_pnl + outC1.unrealized_pnl) := by
  have h1 : simulate_position sigC1 (⟨0, 110⟩ :: [⟨1, 80⟩]) = Except.ok outC1 := rfl
  have h2 : 0 < positionSize sigC1 (PriceSample.mk 0 110).price := by
    norm_num [positionSize, effectiveEntry, leverageMultiplier, sigC1]
  have h3 : outC1.position_status.fully_closed = true := by
    norm_num [sigC1, pricesC1, outC1, simulate_position, getOut, buildOutcome, walkState,
      walk, runTPs, applyTP, initialState, effectiveEntry, positionSize, leverageMultiplier,
      tpPairs, stopTriggered, stopHit, tpHit, fireStop, refreshUnrealized, directionalPnl,
      finalizeState, List.cons_ne_nil]
  exact ⟨⟨h1, h2, h3⟩, c1_closed_run_pnl sigC1 ⟨0, 110⟩ [⟨1, 80⟩] outC1 h1 h2 h3⟩

/-- C3: for a signal with k take-profit levels whose simulation records all
k partial exits, every exit carries the fraction `1/k` of the original
position size (the `min` with the remaining size never binds below it), the
recorded fractions sum to exactly 1, the remaining size is exactly 0, and
the run is fully closed as `All Take Profits Hit`. -/
theorem c3_sizing_invariant (sig : Signal) (first : PriceSample) (rest : List PriceSample)
    (out : Outcome) (hout : simulate_position sig (first :: rest) = Except.ok out)
    (hsize : 0 < positionSize sig first.price)
    (hk : 0 < sig.take_profits.length)
    (hall : out.position_status.partial_exits.length = sig.take_profits.length) :
    (∀ e ∈ out.position_status.partial_exits,
      e.exit_percentage = 1 / (sig.take_profits.length : ℚ)
      ∧ e.exit_size = positionSize sig first.price / (sig.take_profits.length : ℚ))
    ∧ (out.position_status.partial_exits.map (fun e => e.exit_percentage)).sum = 1
    ∧ out.position_status.remaining_position_size = 0
    ∧ out.position_status.fully_closed = true
    ∧ out.exit_reason = some ExitReason.allTakeProfitsHit := by
  obtain ⟨hnd, hfields, hclosed, hopen, halltp, hstop, -⟩ :=
    simulate_position_wf sig first rest out hout hsize
  have hkq : (0:ℚ) < (sig.take_profits.length : ℚ) := by exact_mod_cast hk
  have htpne : sig.take_profits ≠ [] := List.length_pos.mp hk
  have hclosed_b : out.position_status.fully_closed = true := by
    cases hb : out.position_status.fully_closed with
    | true => rfl
    | false =>
      obtain ⟨hrem_eq, htol⟩ := hopen hb
      have hks : (sig.take_profits.length : ℚ)
          * (positionSize sig first.price / (sig.take_profits.length : ℚ))
          = positionSize sig first.price := by field_simp
      rw [hall, hks, sub_self] at hrem_eq
      rcases htol with h | h
      · rw [h] at hall
        simp at hall
        omega
      · rw [hrem_eq] at h
        norm_num at h
  have hrem0 := (hclosed hclosed_b).1
  have hreason : out.exit_reason = some ExitReason.allTakeProfitsHit := by
    rcases (hclosed hclosed_b).2 with h | h
    · rcases hstop h with h2 | h2
      · rw [hall] at h2
        omega
      · exact absurd h2 htpne
    · exact h
  have hfields2 : ∀ e ∈ out.position_status.partial_exits,
      e.exit_percentage = 1 / (sig.take_profits.length : ℚ)
      ∧ e.exit_size = positionSize sig first.price / (sig.take_profits.length : ℚ) :=
    fun e he => ⟨(hfields e he).2.1, (hfields e he).2.2⟩
  refine ⟨hfields2, ?_, hrem0, hclosed_b, hreason⟩
  have hrepl : out.position_status.partial_exits.map (fun e => e.exit_percentage)
      = List.replicate
          (out.position_status.partial_exits.map (fun e => e.exit_percentage)).length
          (1 / (sig.take_profits.length : ℚ)) := by
    refine List.eq_replicate_length.2 ?_
    intro b hb
    obtain ⟨e, he, rfl⟩ := List.mem_map.1 hb
    exact (hfields2 e he).1
  rw [hrepl, List.sum_replicate, List.length_map, hall, nsmul_eq_mul]
  exact mul_one_div_cancel (ne_of_gt hkq)

def sigC3 : Signal :=
  { ticker := "BTC", direction := Direction.long, leverage := LeverageInput.noneStr,
    entry_price := some 100, take_profits := [110, 120], stop_loss := none }

def outC3 : Outcome := getOut (simulate_position sigC3 [⟨0, 115⟩, ⟨1, 125⟩])

/-- C3 witness: a two-level LONG signal whose walk triggers both levels
satisfies the sizing invariant. -/
theorem c3_sizing_invariant_witness :
    (simulate_position sigC3 (⟨0, 115⟩ :: [⟨1, 125⟩]) = Except.ok outC3
      ∧ 0 < positionSize sigC3 (PriceSample.mk 0 115).price
      ∧ 0 < sigC3.take_profits.length
      ∧ outC3.position_status.partial_exits.length = sigC3.take_profits.length)
    ∧ ((∀ e ∈ outC3.position_status.partial_exits,
        e.exit_percentage = 1 / (sigC3.take_profits.length : ℚ)
        ∧ e.exit_size = positionSize sigC3 (PriceSample.mk 0 115).price
            / (sigC3.take_profits.length : ℚ))
      ∧ (outC3.position_status.partial_exits.map (fun e => e.exit_percentage)).sum = 1
      ∧ outC3.position_status.remaining_position_size = 0
      ∧ outC3.position_status.fully_closed = true
      ∧ outC3.exit_reason = some ExitReason.allTakeProfitsHit) := by
  have h1 : simulate_position sigC3 (⟨0, 115⟩ :: [⟨1, 125⟩]) = Except.ok outC3 := rfl
  have h2 : 0 < positionSize sigC3 (PriceSample.mk 0 115).price := by
    norm_num [positionSize, effectiveEntry, leverageMultiplier, sigC3]
  have h3 : 0 < sigC3.take_profits.length := by norm_num [sigC3]
  have h4 : outC3.position_status.partial_exits.length = sigC3.take_profits.length := by
    norm_num [sigC3, outC3, simulate_position, getOut, buildOutcome, walkState,
      walk, runTPs, applyTP, initialState, effectiveEntry, positionSize, leverageMultiplier,
      tpPairs, stopTriggered, stopHit, tpHit, fireStop, refreshUnrealized, directionalPnl,
      finalizeState, List.cons_ne_nil]
  exact ⟨⟨h1, h2, h3, h4⟩, c3_sizing_invariant sigC3 ⟨0, 115⟩ [⟨1, 125⟩] outC3 h1 h2 h3 h4⟩

/-- C4 (amended): the closing tolerance of the walk is the absolute value
`0.001` in position-size units, not `0.001` of the original size: a run is
marked `All Take Profits Hit` exactly when a partial exit brings the
remaining size to at most `0.001` (it is then set to 0), and a run left open
after at least one partial exit has remaining size strictly above `0.001`. -/
theorem c4_absolute_tolerance (sig : Signal) (first : PriceSample) (rest : List PriceSample)
    (out : Outcome) (hout : simulate_position sig (first :: rest) = Except.ok out)
    (hsize : 0 < positionSize sig first.price) :
    (out.exit_reason = some ExitReason.allTakeProfitsHit →
      out.position_status.fully_closed = true
      ∧ out.position_status.remaining_position_size = 0
      ∧ positionSize sig first.price
          - (out.position_status.partial_exits.length : ℚ)
            * (positionSize sig first.price / (sig.take_profits.length : ℚ)) ≤ 1/1000)
    ∧ (out.position_status.fully_closed = false →
        out.position_status.partial_exits = []
        ∨ 1/1000 < out.position_status.remaining_position_size) := by
  obtain ⟨-, -, h3, h4, h5, -, -⟩ := simulate_position_wf sig first rest out hout hsize
  refine ⟨fun h => ⟨(h5 h).1, (h3 (h5 h).1).1, (h5 h).2⟩, fun h => (h4 h).2⟩

def sigC4w : Signal :=
  { ticker := "BTC", direction := Direction.long, leverage := LeverageInput.noneStr,
    entry_price := some 100, take_profits := [110], stop_loss := none }

def outC4w : Outcome := getOut (simulate_position sigC4w [⟨0, 115⟩])

/-- C4 witness: a one-level signal whose take-profit closes the position
satisfies the amended tolerance statement. -/
theorem c4_absolute_tolerance_witness :
    (simulate_position sigC4w (⟨0, 115⟩ :: []) = Except.ok outC4w
      ∧ 0 < positionSize sigC4w (PriceSample.mk 0 115).price)
    ∧ ((outC4w.exit_reason = some ExitReason.allTakeProfitsHit →
        outC4w.position_status.fully_closed = true
        ∧ outC4w.position_status.remaining_position_size = 0
        ∧ positionSize sigC4w (PriceSample.mk 0 115).price
            - (outC4w.position_status.partial_exits.length : ℚ)
              * (positionSize sigC4w (PriceSample.mk 0 115).price
                  / (sigC4w.take_profits.length : ℚ)) ≤ 1/1000)
      ∧ (outC4w.position_status.fully_closed = false →
          outC4w.position_status.partial_exits = []
          ∨ 1/1000 < outC4w.position_status.remaining_position_size)) := by
  have h1 : simulate_position sigC4w (⟨0, 115⟩ :: []) = Except.ok outC4w := rfl
  have h2 : 0 < positionSize sigC4w (PriceSample.mk 0 115).price := by
    norm_num [positionSize, effectiveEntry, leverageMultiplier, sigC4w]
  exact ⟨⟨h1, h2⟩, c4_absolute_tolerance sigC4w ⟨0, 115⟩ [] outC4w h1 h2⟩

/-- C5 (amended): only the string `"none"` and values `float()` cannot
convert are silently normalized to leverage 1.0; a numeric leverage —
including non-positive values — is used as-is in the simulation. -/
theorem c5_leverage_normalization (sig : Signal) (first : PriceSample)
    (rest : List PriceSample) (out : Outcome)
    (hout : simulate_position sig (first :: rest) = Except.ok out) :
    out.leverage = leverageMultiplier sig.leverage
    ∧ (sig.leverage = LeverageInput.invalid → out.leverage = 1)
    ∧ (sig.leverage = LeverageInput.noneStr → out.leverage = 1)
    ∧ ∀ q : ℚ, sig.leverage = LeverageInput.num q → out.leverage = q := by
  have hb : out = buildOutcome sig first rest := by
    have h := hout
    simp only [simulate_position, Except.ok.injEq] at h
    exact h.symm
  subst hb
  have h1 : (buildOutcome sig first rest).leverage = leverageMultiplier sig.leverage := by
    simp only [buildOutcome]
  refine ⟨h1, ?_, ?_, ?_⟩
  · intro h
    rw [h1, h]
    rfl
  · intro h
    rw [h1, h]
    rfl
  · intro q h
    rw [h1, h]
    rfl

def sigC5w : Signal :=
  { ticker := "DOGE", direction := Direction.long, leverage := LeverageInput.invalid,
    entry_price := some 100, take_profits := [], stop_loss := none }

def outC5w : Outcome := getOut (simulate_position sigC5w [⟨0, 100⟩])

/-- C5 witness: a signal with a non-numeric leverage simulates with
leverage 1.0. -/
theorem c5_leverage_normalization_witness :
    simulate_position sigC5w (⟨0, 100⟩ :: []) = Except.ok outC5w
    ∧ (outC5w.leverage = leverageMultiplier sigC5w.leverage
      ∧ (sigC5w.leverage = LeverageInput.invalid → outC5w.leverage = 1)
      ∧ (sigC5w.leverage = LeverageInput.noneStr → outC5w.leverage = 1)
      ∧ ∀ q : ℚ, sigC5w.leverage = LeverageInput.num q → outC5w.leverage = q) := by
  have h1 : simulate_position sigC5w (⟨0, 100⟩ :: []) = Except.ok outC5w := rfl
  exact ⟨h1, c5_leverage_normalization sigC5w ⟨0, 100⟩ [] outC5w h1⟩

set_option maxHeartbeats 1600000 in
/-- C6 (amended): the concrete stop-loss scenario of the spec, run against
the series [63000, 59000], yields `Stop Loss` at exit price 60000 with no
partial exits, and `total_pnl = (60000-63000)/63000 * 10 * 100 = -1000/21`,
which lies between -47.62 and -47.61 (not the claimed -476.19). -/
theorem c6_stop_scenario :
    simulate_position sigC6 pricesC6 = Except.ok outC6
    ∧ outC6.exit_reason = some ExitReason.stopLoss
    ∧ outC6.exit_price = some 60000
    ∧ outC6.position_status.partial_exits = []
    ∧ outC6.total_pnl = (60000 - 63000) / 63000 * 10 * 100
    ∧ outC6.total_pnl = -1000/21
    ∧ -4762/100 < outC6.total_pnl ∧ outC6.total_pnl < -4761/100 := by
  refine ⟨rfl, ?_, ?_, ?_, ?_, ?_, ?_, ?_⟩ <;>
    norm_num [sigC6, pricesC6, outC6, simulate_position, getOut, buildOutcome, walkState,
      walk, runTPs, applyTP, initialState, effectiveEntry, positionSize, leverageMultiplier,
      tpPairs, stopTriggered, stopHit, tpHit, fireStop, refreshUnrealized, directionalPnl,
      finalizeState, List.cons_ne_nil]

end TwitterSim

namespace TwitterSim

/-- C2 (amended): at any step of the walk where the position is open, the
stop-loss is present and nonzero (Python truthiness), and its directional
condition holds, the stop-loss fires even when take-profit conditions hold
at the same step: the walk returns at once with the whole remaining
position closed at the stop-loss price, exit reason `Stop Loss`, and no
partial-exit record added for that step. -/
theorem c2_stop_priority (dir : Direction) (sl : ℚ) (pairs : List (ℚ × ℚ))
    (entry size initCap : ℚ) (s : PriceSample) (rest : List PriceSample) (st : SimState)
    (hsl : sl ≠ 0) (hrem : 0 < st.remaining)
    (hstop : stopHit dir sl s.price = true)
    (htp : ∃ p ∈ pairs, p.1 ∉ st.hitTPs ∧ tpHit dir p.1 s.price = true) :
    walk dir (some sl) pairs entry size initCap (s :: rest) st
      = fireStop dir entry sl s.time st
    ∧ (fireStop dir entry sl s.time st).partialExits = st.partialExits
    ∧ (fireStop dir entry sl s.time st).remaining = 0
    ∧ (fireStop dir entry sl s.time st).exitReason = some ExitReason.stopLoss
    ∧ (fireStop dir entry sl s.time st).exitPrice = some sl := by
  have htrig : stopTriggered dir (some sl) st.remaining s.price = true := by
    simp [stopTriggered, hsl, hrem, hstop]
  refine ⟨?_, rfl, rfl, rfl, rfl⟩
  rw [walk, if_pos htrig]
  rfl

/-- C2 witness: a LONG position at an open state where both the (nonzero)
stop-loss condition and a take-profit condition hold; the stop-loss fires. -/
theorem c2_stop_priority_witness :
    ((90:ℚ) ≠ 0 ∧ (0:ℚ) < (initialState 1 100).remaining
      ∧ stopHit Direction.long 90 (PriceSample.mk 5 85).price = true
      ∧ (∃ p ∈ [((80:ℚ), (1:ℚ))], p.1 ∉ (initialState 1 100).hitTPs
          ∧ tpHit Direction.long p.1 (PriceSample.mk 5 85).price = true))
    ∧ (walk Direction.long (some 90) [(80, 1)] 100 1 100 [⟨5, 85⟩] (initialState 1 100)
        = fireStop Direction.long 100 90 5 (initialState 1 100)
      ∧ (fireStop Direction.long 100 90 5 (initialState 1 100)).partialExits
          = (initialState 1 100).partialExits
      ∧ (fireStop Direction.long 100 90 5 (initialState 1 100)).remaining = 0
      ∧ (fireStop Direction.long 100 90 5 (initialState 1 100)).exitReason
          = some ExitReason.stopLoss
      ∧ (fireStop Direction.long 100 90 5 (initialState 1 100)).exitPrice = some 90) := by
  have hsl : (90:ℚ) ≠ 0 := by norm_num
  have hrem : (0:ℚ) < (initialState 1 100).remaining := by norm_num [initialState]
  have hstop : stopHit Direction.long 90 (PriceSample.mk 5 85).price = true := by
    norm_num [stopHit]
  have htp : ∃ p ∈ [((80:ℚ), (1:ℚ))], p.1 ∉ (initialState 1 100).hitTPs
      ∧ tpHit Direction.long p.1 (PriceSample.mk 5 85).price = true := by
    refine ⟨(80, 1), List.mem_singleton_self _, ?_, ?_⟩
    · norm_num [initialState]
    · norm_num [tpHit]
  exact ⟨⟨hsl, hrem, hstop, htp⟩,
    c2_stop_priority Direction.long 90 [(80, 1)] 100 1 100 ⟨5, 85⟩ [] (initialState 1 100)
      hsl hrem hstop htp⟩

/-- C9: the liquidation-price helper is the pure formula
`threshold = 0.9 / leverage`, `entry * (1 - threshold)` for LONG and
`entry * (1 + threshold)` for SHORT, for every entry price and positive
leverage. -/
theorem c9_liquidation_price (entry leverage : ℚ) (hlev : 0 < leverage) :
    calculate_liquidation_price entry "LONG" leverage = entry * (1 - 9/10 / leverage)
    ∧ calculate_liquidation_price entry "SHORT" leverage = entry * (1 + 9/10 / leverage) := by
  constructor
  · simp [calculate_liquidation_price]
  · rw [calculate_liquidation_price, if_neg (by decide)]

/-- C9 witness: the formula at entry 63000 and leverage 10. -/
theorem c9_liquidation_price_witness :
    (0:ℚ) < 10
    ∧ (calculate_liquidation_price 63000 "LONG" 10 = 63000 * (1 - 9/10 / 10)
      ∧ calculate_liquidation_price 63000 "SHORT" 10 = 63000 * (1 + 9/10 / 10)) :=
  ⟨by norm_num, c9_liquidation_price 63000 10 (by norm_num)⟩

/-- C10 (amended): when `take_profit_levels` contains duplicates (k entries,
d < k distinct values), each level value triggers at most one partial exit
while each recorded exit still carries the fraction `1/k`, so the recorded
fractions sum to `(number of exits)/k ≤ d/k < 1`; the position can still be
closed through take-profits alone, but only when the slice accounting
reaches the absolute `0.001` tolerance. -/
theorem c10_duplicate_levels (sig : Signal) (first : PriceSample) (rest : List PriceSample)
    (out : Outcome) (hout : simulate_position sig (first :: rest) = Except.ok out)
    (hsize : 0 < positionSize sig first.price)
    (hdup : ¬ sig.take_profits.Nodup) :
    (out.position_status.partial_exits.map (fun e => e.tp_level)).Nodup
    ∧ (∀ e ∈ out.position_status.partial_exits,
        e.exit_percentage = 1 / (sig.take_profits.length : ℚ))
    ∧ (out.position_status.partial_exits.map (fun e => e.exit_percentage)).sum
        = (out.position_status.partial_exits.length : ℚ) / (sig.take_profits.length : ℚ)
    ∧ (out.position_status.partial_exits.map (fun e => e.exit_percentage)).sum
        ≤ (sig.take_profits.dedup.length : ℚ) / (sig.take_profits.length : ℚ)
    ∧ (out.position_status.partial_exits.map (fun e => e.exit_percentage)).sum < 1
    ∧ (out.exit_reason = some ExitReason.allTakeProfitsHit →
        positionSize sig first.price
          - (sig.take_profits.dedup.length : ℚ)
            * (positionSize sig first.price / (sig.take_profits.length : ℚ)) ≤ 1/1000) := by
  obtain ⟨hnd, hfields, -, -, halltp, -, -⟩ :=
    simulate_position_wf sig first rest out hout hsize
  have htpne : sig.take_profits ≠ [] := by
    intro h
    exact hdup (h ▸ List.nodup_nil)
  have hkpos : 0 < sig.take_profits.length := List.length_pos.mpr htpne
  have hkq : (0:ℚ) < (sig.take_profits.length : ℚ) := by exact_mod_cast hkpos
  have hsub : sig.take_profits.dedup.Sublist sig.take_profits := List.dedup_sublist _
  have hdle : sig.take_profits.dedup.length ≤ sig.take_profits.length := hsub.length_le
  have hdlt : sig.take_profits.dedup.length < sig.take_profits.length := by
    rcases lt_or_eq_of_le hdle with h | h
    · exact h
    · exact absurd (List.dedup_eq_self.mp (hsub.eq_of_length h)) hdup
  have hmem : ∀ x ∈ out.position_status.partial_exits.map (fun e => e.tp_level),
      x ∈ sig.take_profits := by
    intro x hx
    obtain ⟨e, he, rfl⟩ := List.mem_map.1 hx
    exact (hfields e he).1
  have hsubset : (out.position_status.partial_exits.map (fun e => e.tp_level)).toFinset
      ⊆ sig.take_profits.toFinset := by
    intro x hx
    exact List.mem_toFinset.2 (hmem x (List.mem_toFinset.1 hx))
  have hcard := Finset.card_le_card hsubset
  rw [List.toFinset_card_of_nodup hnd, List.card_toFinset, List.length_map] at hcard
  have hcardq : (out.position_status.partial_exits.length : ℚ)
      ≤ (sig.take_profits.dedup.length : ℚ) := by exact_mod_cast hcard
  have hdq : (sig.take_profits.dedup.length : ℚ) < (sig.take_profits.length : ℚ) := by
    exact_mod_cast hdlt
  have hpct : ∀ e ∈ out.position_status.partial_exits,
      e.exit_percentage = 1 / (sig.take_profits.length : ℚ) :=
    fun e he => (hfields e he).2.1
  have hsum : (out.position_status.partial_exits.map (fun e => e.exit_percentage)).sum
      = (out.position_status.partial_exits.length : ℚ) / (sig.take_profits.length : ℚ) := by
    have hrepl : out.position_status.partial_exits.map (fun e => e.exit_percentage)
        = List.replicate
            (out.position_status.partial_exits.map (fun e => e.exit_percentage)).length
            (1 / (sig.take_profits.length : ℚ)) := by
      refine List.eq_replicate_length.2 ?_
      intro b hb
      obtain ⟨e, he, rfl⟩ := List.mem_map.1 hb
      exact hpct e he
    rw [hrepl, List.sum_replicate, List.length_map, nsmul_eq_mul, mul_one_div]
  refine ⟨hnd, hpct, hsum, ?_, ?_, ?_⟩
  · rw [hsum]
    gcongr
  · rw [hsum]
    calc (out.position_status.partial_exits.length : ℚ) / (sig.take_profits.length : ℚ)
        ≤ (sig.take_profits.dedup.length : ℚ) / (sig.take_profits.length : ℚ) := by gcongr
      _ < 1 := (div_lt_one hkq).2 hdq
  · intro h
    have hbound := (halltp h).2
    have hq : 0 < positionSize sig first.price / (sig.take_profits.length : ℚ) :=
      div_pos hsize hkq
    have hmul : (out.position_status.partial_exits.length : ℚ)
        * (positionSize sig first.price / (sig.take_profits.length : ℚ))
        ≤ (sig.take_profits.dedup.length : ℚ)
          * (positionSize sig first.price / (sig.take_profits.length : ℚ)) :=
      mul_le_mul_of_nonneg_right hcardq hq.le
    linarith

def sigC10w : Signal :=
  { ticker := "BTC", direction := Direction.long, leverage := LeverageInput.noneStr,
    entry_price := some 100, take_profits := [110, 110], stop_loss := none }

def outC10w : Outcome := getOut (simulate_position sigC10w [⟨0, 115⟩])

/-- C10 witness: a duplicated two-entry level list triggers one partial exit
with fraction 1/2 and the amended statement holds. -/
theorem c10_duplicate_levels_witness :
    (simulate_position sigC10w (⟨0, 115⟩ :: []) = Except.ok outC10w
      ∧ 0 < positionSize sigC10w (PriceSample.mk 0 115).price
      ∧ ¬ sigC10w.take_profits.Nodup)
    ∧ ((outC10w.position_status.partial_exits.map (fun e => e.tp_level)).Nodup
      ∧ (∀ e ∈ outC10w.position_status.partial_exits,
          e.exit_percentage = 1 / (sigC10w.take_profits.length : ℚ))
      ∧ (outC10w.position_status.partial_exits.map (fun e => e.exit_percentage)).sum
          = (outC10w.position_status.partial_exits.length : ℚ)
            / (sigC10w.take_profits.length : ℚ)
      ∧ (outC10w.position_status.partial_exits.map (fun e => e.exit_percentage)).sum
          ≤ (sigC10w.take_profits.dedup.length : ℚ) / (sigC10w.take_profits.length : ℚ)
      ∧ (outC10w.position_status.partial_exits.map (fun e => e.exit_percentage)).sum < 1
      ∧ (outC10w.exit_reason = some ExitReason.allTakeProfitsHit →
          positionSize sigC10w (PriceSample.mk 0 115).price
            - (sigC10w.take_profits.dedup.length : ℚ)
              * (positionSize sigC10w (PriceSample.mk 0 115).price
                  / (sigC10w.take_profits.length : ℚ)) ≤ 1/1000)) := by
  have h1 : simulate_position sigC10w (⟨0, 115⟩ :: []) = Except.ok outC10w := rfl
  have h2 : 0 < positionSize sigC10w (PriceSample.mk 0 115).price := by
    norm_num [positionSize, effectiveEntry, leverageMultiplier, sigC10w]
  have h3 : ¬ sigC10w.take_profits.Nodup := by
    simp [sigC10w, List.nodup_cons]
  exact ⟨⟨h1, h2, h3⟩, c10_duplicate_levels sigC10w ⟨0, 115⟩ [] outC10w h1 h2 h3⟩

end TwitterSim

namespace TwitterSim

/-- The Python-style strict-replacement fold equals Mathlib's `argAux` fold
started from `some`: both keep the first of several maximal elements. -/
theorem foldl_max_some (xs : List Outcome) : ∀ x : Outcome,
    xs.foldl (List.argAux fun b c : Outcome => c.roi_percent < b.roi_percent) (some x)
      = some (xs.foldl (fun b y => if b.roi_percent < y.roi_percent then y else b) x) := by
  induction xs with
  | nil =>
    intro x
    rfl
  | cons y ys ih =>
    intro x
    rw [List.foldl_cons, List.foldl_cons]
    have h : List.argAux (fun b c : Outcome => c.roi_percent < b.roi_percent) (some x) y
        = some (if x.roi_percent < y.roi_percent then y else x) := by
      unfold List.argAux
      dsimp only
      split_ifs <;> rfl
    rw [h]
    exact ih _

/-- The dual fold for the minimum. -/
theorem foldl_min_some (xs : List Outcome) : ∀ x : Outcome,
    xs.foldl (List.argAux fun b c : Outcome => b.roi_percent < c.roi_percent) (some x)
      = some (xs.foldl (fun b y => if y.roi_percent < b.roi_percent then y else b) x) := by
  induction xs with
  | nil =>
    intro x
    rfl
  | cons y ys ih =>
    intro x
    rw [List.foldl_cons, List.foldl_cons]
    have h : List.argAux (fun b c : Outcome => b.roi_percent < c.roi_percent) (some x) y
        = some (if y.roi_percent < x.roi_percent then y else x) := by
      unfold List.argAux
      dsimp only
      split_ifs <;> rfl
    rw [h]
    exact ih _

/-- `best_trade`'s fold is Mathlib's `argmax` of `roi_percent`. -/
theorem bestTrade_eq_argmax (rs : List Outcome) :
    bestTrade rs = rs.argmax (fun o => o.roi_percent) := by
  cases rs with
  | nil => rfl
  | cons x xs =>
    rw [bestTrade]
    unfold List.argmax
    rw [List.foldl_cons]
    exact (foldl_max_some xs x).symm

/-- `worst_trade`'s fold is Mathlib's `argmin` of `roi_percent`. -/
theorem worstTrade_eq_argmin (rs : List Outcome) :
    worstTrade rs = rs.argmin (fun o => o.roi_percent) := by
  cases rs with
  | nil => rfl
  | cons x xs =>
    rw [worstTrade]
    unfold List.argmin
    rw [List.foldl_cons]
    exact (foldl_min_some xs x).symm

/-- The profitable / losing / zero partition of the outcome list. -/
theorem count_partition (rs : List Outcome) :
    (rs.filter (fun r => decide (0 < r.total_pnl))).length
      + (rs.filter (fun r => decide (r.total_pnl < 0))).length
      + (rs.filter (fun r => decide (r.total_pnl = 0))).length = rs.length := by
  induction rs with
  | nil => rfl
  | cons r rest ih =>
    simp only [List.filter_cons, List.length_cons]
    rcases lt_trichotomy r.total_pnl 0 with h | h | h
    · rw [if_neg (by simp [not_lt.2 h.le]), if_pos (by simp [h]), if_neg (by simp [h.ne])]
      simp only [List.length_cons]
      omega
    · rw [if_neg (by simp [h]), if_neg (by simp [h]), if_pos (by simp [h])]
      simp only [List.length_cons]
      omega
    · rw [if_pos (by simp [h]), if_neg (by simp [not_lt.2 h.le]), if_neg (by simp [h.ne'])]
      simp only [List.length_cons]
      omega

/-- C7: on every non-empty outcome list, the aggregation counts profitable
outcomes as those with `total_pnl > 0` and losing ones as those with
`total_pnl < 0` (an outcome with `total_pnl = 0` is in neither count),
computes `win_rate = profitable / total * 100`, and the best/worst trades
are the outcomes with maximal/minimal `roi_percent`, ties broken by first
occurrence in input order (smallest index among optima). -/
theorem c7_aggregation (rs : List Outcome) (hne : rs ≠ []) :
    ∃ s : Summary, aggregateResults rs = Except.ok s
      ∧ s.profitable_positions = (rs.filter (fun r => decide (0 < r.total_pnl))).length
      ∧ s.losing_positions = (rs.filter (fun r => decide (r.total_pnl < 0))).length
      ∧ s.profitable_positions + s.losing_positions
          + (rs.filter (fun r => decide (r.total_pnl = 0))).length = rs.length
      ∧ s.win_rate = (s.profitable_positions : ℚ) / (rs.length : ℚ) * 100
      ∧ (∃ b, s.best_trade = some b ∧ b ∈ rs
          ∧ (∀ a ∈ rs, a.roi_percent ≤ b.roi_percent)
          ∧ ∀ a ∈ rs, b.roi_percent ≤ a.roi_percent → rs.indexOf b ≤ rs.indexOf a)
      ∧ (∃ w, s.worst_trade = some w ∧ w ∈ rs
          ∧ (∀ a ∈ rs, w.roi_percent ≤ a.roi_percent)
          ∧ ∀ a ∈ rs, a.roi_percent ≤ w.roi_percent → rs.indexOf w ≤ rs.indexOf a) := by
  have hlen : 0 < rs.length := List.length_pos.mpr hne
  obtain ⟨b, hbest⟩ : ∃ b, rs.argmax (fun o => o.roi_percent) = some b := by
    cases h : rs.argmax (fun o => o.roi_percent) with
    | none => exact absurd (List.argmax_eq_none.mp h) hne
    | some b => exact ⟨b, rfl⟩
  obtain ⟨w, hworst⟩ : ∃ w, rs.argmin (fun o => o.roi_percent) = some w := by
    cases h : rs.argmin (fun o => o.roi_percent) with
    | none => exact absurd (List.argmin_eq_none.mp h) hne
    | some w => exact ⟨w, rfl⟩
  obtain ⟨hbmem, hble, hbidx⟩ := List.argmax_eq_some_iff.mp hbest
  obtain ⟨hwmem, hwle, hwidx⟩ := List.argmin_eq_some_iff.mp hworst
  unfold aggregateResults
  rw [if_neg hne]
  refine ⟨_, rfl, rfl, rfl, count_partition rs, ?_, ?_, ?_⟩
  · show (if 0 < rs.length then
        ((rs.filter (fun r => decide (0 < r.total_pnl))).length : ℚ) / (rs.length : ℚ) * 100
      else 0) = _
    rw [if_pos hlen]
  · refine ⟨b, ?_, hbmem, hble, hbidx⟩
    show bestTrade rs = some b
    rw [bestTrade_eq_argmax]
    exact hbest
  · refine ⟨w, ?_, hwmem, hwle, hwidx⟩
    show worstTrade rs = some w
    rw [worstTrade_eq_argmin]
    exact hworst

def outW1 : Outcome :=
  { (default : Outcome) with ticker := "BTC", total_pnl := 5, roi_percent := 5 }

def outW2 : Outcome :=
  { (default : Outcome) with ticker := "ETH", total_pnl := -3, roi_percent := -3 }

/-- C7 witness: aggregation of a concrete two-outcome list. -/
theorem c7_aggregation_witness :
    ([outW1, outW2] ≠ ([] : List Outcome))
    ∧ (∃ s : Summary, aggregateResults [outW1, outW2] = Except.ok s
      ∧ s.profitable_positions
          = ([outW1, outW2].filter (fun r => decide (0 < r.total_pnl))).length
      ∧ s.losing_positions
          = ([outW1, outW2].filter (fun r => decide (r.total_pnl < 0))).length
      ∧ s.profitable_positions + s.losing_positions
          + ([outW1, outW2].filter (fun r => decide (r.total_pnl = 0))).length
          = [outW1, outW2].length
      ∧ s.win_rate = (s.profitable_positions : ℚ) / (([outW1, outW2] : List Outcome).length : ℚ) * 100
      ∧ (∃ b, s.best_trade = some b ∧ b ∈ [outW1, outW2]
          ∧ (∀ a ∈ [outW1, outW2], a.roi_percent ≤ b.roi_percent)
          ∧ ∀ a ∈ [outW1, outW2], b.roi_percent ≤ a.roi_percent →
              [outW1, outW2].indexOf b ≤ [outW1, outW2].indexOf a)
      ∧ (∃ w, s.worst_trade = some w ∧ w ∈ [outW1, outW2]
          ∧ (∀ a ∈ [outW1, outW2], w.roi_percent ≤ a.roi_percent)
          ∧ ∀ a ∈ [outW1, outW2], a.roi_percent ≤ w.roi_percent →
              [outW1, outW2].indexOf w ≤ [outW1, outW2].indexOf a)) :=
  ⟨List.cons_ne_nil _ _, c7_aggregation [outW1, outW2] (List.cons_ne_nil _ _)⟩

/-- C8: refuted as stated.  The empty batch and the empty aggregation both
return bare error records (not a summary carrying `total_positions = 0`):
no `Except.ok` summary is produced at all. -/
theorem c8_counterexample :
    simulate_all_positions [] = Except.error "Aucune analyse de tweets trouvée pour la simulation"
    ∧ (simulate_all_positions ([] : List (Signal × List PriceSample))).isOk = false
    ∧ aggregateResults [] = Except.error "Aucune position simulée avec succès"
    ∧ (aggregateResults ([] : List Outcome)).isOk = false := by
  refine ⟨rfl, rfl, rfl, rfl⟩

/-- C8 (amended): batch aggregation over an empty input and aggregation over
an empty result list each return an explicit error value (a French "no
data" message) rather than raising; no summary record — in particular no
`total_positions` field — is produced on those paths. -/
theorem c8_empty_batch_error :
    simulate_all_positions [] = Except.error "Aucune analyse de tweets trouvée pour la simulation"
    ∧ aggregateResults [] = Except.error "Aucune position simulée avec succès"
    ∧ (simulate_all_positions ([] : List (Signal × List PriceSample))).isOk = false
    ∧ (aggregateResults ([] : List Outcome)).isOk = false
    ∧ simulate_all_positions [(sigC5w, [])]
        = Except.error "Aucune position simulée avec succès" := by
  refine ⟨rfl, rfl, rfl, rfl, rfl⟩

end TwitterSim
